import Mathlib

/-!
Shallow embedding of `src/taq_import.py` (TAQTimescaleDB), a chunked parallel
CSV import pipeline.  The program:
  * validates that the source file exists (line 51), exiting 1 otherwise;
  * strips header/footer with `sed '1d;$d' FILE > /tmp/taq_clean` (line 65);
  * counts the cleaned lines (line 69) and computes
    `chunk_size = total_lines // num_chunks` (line 70);
  * writes chunk i with `sed -n '{start},{end}p'` where
    `start = i*chunk_size + 1` and `end = (i+1)*chunk_size` for all but the
    last chunk, `end = total_lines` for the last (lines 76-82);
  * loads each chunk with a psql subprocess (lines 10-38), classifying exit
    code 0 as SUCCESS and anything else as FAILED, recording elapsed time;
  * prints a summary (lines 98-106): success count, and an average over
    successful chunks only when the success count is positive;
  * prints the detail table after sorting results by chunk index (line 110);
  * deletes every chunk file and the cleaned file iff all results are
    SUCCESS (lines 115-121).

Modelling conventions: the external environment is a set of parameters
(whether the source path exists, the source's list of lines, the psql exit
code and elapsed wall time per chunk index).  Elapsed times are modelled as
rationals.  `num_chunks` is modelled as a natural number; an uncaught Python
exception is modelled as an `error` in the run trace together with exit
code 1 (CPython exits 1 on an uncaught exception).  The `sed -n 'a,bp'`
range semantics follows GNU sed: when the end address is at most the start
address, exactly the line at the start address is selected (when it exists).
The filesystem effect of a run on its temporary artifacts is tracked as a
`String → Bool` existence map, initially false, written by the `>`
redirections and erased by `os.remove`.
-/

/-- Status string assigned by `import_chunk` (lines 23-26 of the source). -/
inductive Status
  | SUCCESS
  | FAILED
deriving DecidableEq, Repr

/-- Per-chunk result dictionary returned by `import_chunk` (lines 32-38). -/
structure ChunkResult where
  chunk : Nat
  file : String
  status : Status
  time : ℚ
  result : Int
deriving DecidableEq, Repr

/-- Python exceptions that the modelled run can die on. -/
inductive PyError
  | zeroDivisionError
deriving DecidableEq, Repr

/-- Worker body `import_chunk` (lines 10-38): the psql exit code for chunk
`chunk_index` is `lr chunk_index` and the elapsed wall time is
`tm chunk_index`; exit code 0 is classified SUCCESS, anything else FAILED,
and the reported chunk number is the 1-based `chunk_index + 1`. -/
def import_chunk (lr : Nat → Int) (tm : Nat → ℚ) (chunk_index : Nat)
    (chunk_file : String) : ChunkResult :=
  let result := lr chunk_index
  { chunk := chunk_index + 1
    file := chunk_file
    status := if result = 0 then Status.SUCCESS else Status.FAILED
    time := tm chunk_index
    result := result }

/-- Effect of `sed '1d;$d'` (line 65): drop the first and the last line. -/
def cleanedLines (sourceLines : List String) : List String :=
  (sourceLines.drop 1).dropLast

/-- Line 70: `chunk_size = total_lines // num_chunks`. -/
def chunk_size (total_lines num_chunks : Nat) : Nat :=
  total_lines / num_chunks

/-- Line 77: `start = i * chunk_size + 1`. -/
def chunkStart (total_lines num_chunks i : Nat) : Nat :=
  i * chunk_size total_lines num_chunks + 1

/-- Line 78: `end = (i + 1) * chunk_size if i < num_chunks - 1 else
total_lines`. -/
def chunkEnd (total_lines num_chunks i : Nat) : Nat :=
  if i < num_chunks - 1 then (i + 1) * chunk_size total_lines num_chunks
  else total_lines

/-- Number of lines in the 1-indexed inclusive range
`[chunkStart, chunkEnd]` of chunk `i` (0 when the range is reversed). -/
def chunkLen (total_lines num_chunks i : Nat) : Nat :=
  chunkEnd total_lines num_chunks i + 1 - chunkStart total_lines num_chunks i

/-- The list of `(start, end)` ranges printed and used by the loop of
lines 76-82. -/
def chunkRanges (total_lines num_chunks : Nat) : List (Nat × Nat) :=
  (List.range num_chunks).map fun i =>
    (chunkStart total_lines num_chunks i, chunkEnd total_lines num_chunks i)

/-- The list of chunk sizes corresponding to `chunkRanges`. -/
def chunkSizes (total_lines num_chunks : Nat) : List Nat :=
  (List.range num_chunks).map fun i => chunkLen total_lines num_chunks i

/-- GNU sed `-n 's,ep'` on a list of lines (1-indexed, inclusive): when
`e ≤ s` only the line at address `s` is selected (GNU sed: "If the second
address is a number less than (or equal to) the line matching the first
address, then only the one line is matched."); otherwise lines `s..e`,
clipped at end of input. -/
def sedPrintRange (s e : Nat) (lines : List String) : List String :=
  if e ≤ s then (lines.drop (s - 1)).take 1
  else (lines.drop (s - 1)).take (e + 1 - s)

/-- Contents written to chunk file `i` by line 81:
`sed -n '{start},{end}p' /tmp/taq_clean > chunk_file`. -/
def chunkContents (cleaned : List String) (num_chunks i : Nat) : List String :=
  sedPrintRange (chunkStart cleaned.length num_chunks i)
    (chunkEnd cleaned.length num_chunks i) cleaned

/-- Fixed temporary path of the cleaned file (line 65). -/
def taq_clean_path : String := "/tmp/taq_clean"

/-- Fixed temporary path of chunk `i` (line 79):
`f"/tmp/taq_chunk_{i}.csv"`.  Note it contains no run-unique component. -/
def chunk_file_path (i : Nat) : String :=
  "/tmp/taq_chunk_" ++ toString i ++ ".csv"

/-- The ordered list of chunk file paths created by the loop of
lines 76-82. -/
def chunk_files (num_chunks : Nat) : List String :=
  (List.range num_chunks).map chunk_file_path

/-- All temporary paths a run touches: the cleaned file and every chunk
file. -/
def tempFilePaths (num_chunks : Nat) : List String :=
  taq_clean_path :: chunk_files num_chunks

/-- Predicate of lines 98, 99 and 115: `r["status"] == "SUCCESS"`. -/
def is_success (r : ChunkResult) : Bool :=
  r.status == Status.SUCCESS

/-- Line 98: `success_count = sum(1 for r in results if r["status"] ==
"SUCCESS")`. -/
def success_count (results : List ChunkResult) : Nat :=
  results.countP is_success

/-- Line 99: `success_time = sum(r["time"] for r in results if r["status"]
== "SUCCESS")`. -/
def success_time (results : List ChunkResult) : ℚ :=
  ((results.filter is_success).map ChunkResult.time).sum

/-- Lines 105-106: the average-duration line is printed only when
`success_count > 0`, in which case it shows
`success_time / success_count`. -/
def averageLine (results : List ChunkResult) : Option ℚ :=
  if 0 < success_count results then
    some (success_time results / (success_count results : ℚ))
  else none

/-- Line 110: `sorted(results, key=lambda x: x["chunk"])`. -/
def sorted_results (results : List ChunkResult) : List ChunkResult :=
  List.insertionSort (fun a b => a.chunk ≤ b.chunk) results

/-- Creating or truncating a file with a `>` redirection: the path now
exists. -/
def fsWrite (fs : String → Bool) (p : String) : String → Bool :=
  fun q => if q = p then true else fs q

/-- Effect of `os.remove`: the path no longer exists. -/
def fsRemove (fs : String → Bool) (p : String) : String → Bool :=
  fun q => if q = p then false else fs q

/-- The list of results produced by `p.map(import_chunk, chunk_args)`
(lines 86-89): one call per chunk, in chunk order (`Pool.map` preserves
argument order). -/
def runResults (lr : Nat → Int) (tm : Nat → ℚ) (num_chunks : Nat) :
    List ChunkResult :=
  (List.range num_chunks).map fun i => import_chunk lr tm i (chunk_file_path i)

/-- Existence map of the temporary artifacts after the run: the cleaned
file is written (line 65), every chunk file is written (line 81), and
lines 115-121 remove every chunk file and then the cleaned file iff all
results are SUCCESS. -/
def finalFS (num_chunks : Nat) (results : List ChunkResult) : String → Bool :=
  let fs1 := fsWrite (fun _ => false) taq_clean_path
  let fs2 := (chunk_files num_chunks).foldl fsWrite fs1
  if results.all is_success then
    fsRemove ((chunk_files num_chunks).foldl fsRemove fs2) taq_clean_path
  else fs2

/-- Observable trace of one run of `main`. -/
structure RunTrace where
  exitCode : Nat
  error : Option PyError
  cleanedWritten : Bool
  cleaned : List String
  total_lines : Nat
  ranges : List (Nat × Nat)
  chunkFiles : List String
  chunkFileContents : List (List String)
  loaderInvocations : Nat
  results : List ChunkResult
  averagePrinted : Option ℚ
  sortedResults : List ChunkResult
  fileExistsAfter : String → Bool

/-- The function named `main` in the source (lines 40-121; renamed here
because Lean reserves that identifier for executables).  Parameters
describe the
environment: `fileExists` is `os.path.exists(args.file)`; `sourceLines`
the lines of the source file; `num_chunks` the `--chunks` argument
(default 8, not validated anywhere); `lr i` the psql exit status for chunk
`i`; `tm i` its elapsed time.  When the source is missing, `sys.exit(1)`
fires before any work (lines 51-53).  When `num_chunks = 0`, line 70
raises an uncaught ZeroDivisionError after the cleaned file was already
written by line 65, so the process dies with exit code 1. -/
def mainRun (fileExists : Bool) (sourceLines : List String) (num_chunks : Nat)
    (lr : Nat → Int) (tm : Nat → ℚ) : RunTrace :=
  if fileExists = false then
    { exitCode := 1
      error := none
      cleanedWritten := false
      cleaned := []
      total_lines := 0
      ranges := []
      chunkFiles := []
      chunkFileContents := []
      loaderInvocations := 0
      results := []
      averagePrinted := none
      sortedResults := []
      fileExistsAfter := fun _ => false }
  else
    let cleaned := cleanedLines sourceLines
    let total_lines := cleaned.length
    if num_chunks = 0 then
      { exitCode := 1
        error := some PyError.zeroDivisionError
        cleanedWritten := true
        cleaned := cleaned
        total_lines := total_lines
        ranges := []
        chunkFiles := []
        chunkFileContents := []
        loaderInvocations := 0
        results := []
        averagePrinted := none
        sortedResults := []
        fileExistsAfter := fsWrite (fun _ => false) taq_clean_path }
    else
      let results := runResults lr tm num_chunks
      { exitCode := 0
        error := none
        cleanedWritten := true
        cleaned := cleaned
        total_lines := total_lines
        ranges := chunkRanges total_lines num_chunks
        chunkFiles := chunk_files num_chunks
        chunkFileContents :=
          (List.range num_chunks).map (chunkContents cleaned num_chunks)
        loaderInvocations := (chunk_files num_chunks).length
        results := results
        averagePrinted := averageLine results
        sortedResults := sorted_results results
        fileExistsAfter := finalFS num_chunks results }

/-! ### Concrete environments used by witnesses and counterexamples -/

/-- A four-line source file: header, two data rows, footer. -/
def srcSample : List String := ["header", "data1", "data2", "footer"]

/-- A three-line source file whose cleaned form has a single line. -/
def srcSmall : List String := ["header", "data1", "footer"]

/-- A different source file from `srcSample`, for comparing two runs. -/
def srcAlt : List String := ["header", "data9", "data8", "footer"]

/-- Loader environment in which every psql invocation succeeds. -/
def lrZero : Nat → Int := fun _ => 0

/-- Loader environment in which every psql invocation fails with exit 1. -/
def lrOne : Nat → Int := fun _ => 1

/-- Trivial timing environment. -/
def tmZero : Nat → ℚ := fun _ => 0

/-- Two results, one SUCCESS (duration 2) and one FAILED (duration 5). -/
def rsA : List ChunkResult :=
  [⟨1, chunk_file_path 0, Status.SUCCESS, 2, 0⟩,
   ⟨2, chunk_file_path 1, Status.FAILED, 5, 1⟩]

/-- Same SUCCESS entry as `rsA` but a different FAILED entry (duration 7)
in a different position. -/
def rsB : List ChunkResult :=
  [⟨2, chunk_file_path 1, Status.FAILED, 7, 1⟩,
   ⟨1, chunk_file_path 0, Status.SUCCESS, 2, 0⟩]

/-- Three results listed in reverse completion order: chunk 3 finished
first, chunk 1 last. -/
def revResults : List ChunkResult :=
  [⟨3, chunk_file_path 2, Status.SUCCESS, 1, 0⟩,
   ⟨2, chunk_file_path 1, Status.SUCCESS, 1, 0⟩,
   ⟨1, chunk_file_path 0, Status.SUCCESS, 1, 0⟩]

/-- The chunk-index key order used on line 110 is total. -/
instance : IsTotal ChunkResult (fun a b => a.chunk ≤ b.chunk) :=
  ⟨fun a b => Nat.le_total a.chunk b.chunk⟩

/-- The chunk-index key order used on line 110 is transitive. -/
instance : IsTrans ChunkResult (fun a b => a.chunk ≤ b.chunk) :=
  ⟨fun _ _ _ h1 h2 => Nat.le_trans h1 h2⟩

/-! ### Helper lemmas about the chunk-boundary arithmetic -/

/-- Any multiple `i * (L / N)` with `i ≤ N` stays within `L`. -/
lemma chunk_mul_le (L N i : Nat) (hi : i ≤ N) : i * (L / N) ≤ L :=
  calc i * (L / N) ≤ N * (L / N) := Nat.mul_le_mul_right _ hi
    _ = (L / N) * N := Nat.mul_comm _ _
    _ ≤ L := Nat.div_mul_le_self _ _

/-- Every positive line number lies in a block `(q*cs, (q+1)*cs]` when the
block width `cs` is positive. -/
lemma exists_block (cs l : Nat) (hcs : 0 < cs) (hl : 1 ≤ l) :
    ∃ q, q * cs < l ∧ l ≤ (q + 1) * cs := by
  refine ⟨(l - 1) / cs, ?_, ?_⟩
  · have h1 : (l - 1) / cs * cs ≤ l - 1 := Nat.div_mul_le_self _ _
    exact Nat.lt_of_le_of_lt h1 (by omega)
  · have h2 := Nat.div_add_mod (l - 1) cs
    have h3 := Nat.mod_lt (l - 1) hcs
    have h4 : ((l - 1) / cs + 1) * cs = cs * ((l - 1) / cs) + cs := by ring
    rw [h4]
    omega

/-- A line cannot lie at or below the end of an earlier chunk and at or
above the start of a strictly later chunk. -/
lemma chunk_no_overlap_aux (L N l i j : Nat) (hij : i < j) (hj : j < N)
    (he : l ≤ chunkEnd L N i) (hs : chunkStart L N j ≤ l) : False := by
  have hi : i < N - 1 := by omega
  simp only [chunkEnd, chunk_size, if_pos hi] at he
  simp only [chunkStart, chunk_size] at hs
  have h1 : (i + 1) * (L / N) ≤ j * (L / N) := Nat.mul_le_mul_right _ (by omega)
  have h2 : j * (L / N) + 1 ≤ j * (L / N) := le_trans hs (le_trans he h1)
  exact Nat.not_succ_le_self _ h2

/-- Claim C1: for every chunkCount `N ≥ 1` and cleaned-file line count `L`,
the chunk ranges computed by the splitter (`start = i*chunkSize + 1`,
`end = (i+1)*chunkSize` for every chunk but the last, `end = L` for the
last chunk, `chunkSize = L / N` by integer division) form an exact
partition of `[1, L]`: a line number lies in `[1, L]` iff it lies in some
chunk's range, and no line lies in two distinct chunks' ranges. -/
theorem chunk_ranges_partition (L N : Nat) (hN : 1 ≤ N) :
    (∀ l : Nat, (1 ≤ l ∧ l ≤ L) ↔
      ∃ i, i < N ∧ chunkStart L N i ≤ l ∧ l ≤ chunkEnd L N i)
    ∧ (∀ l i j, i < N → j < N →
        chunkStart L N i ≤ l → l ≤ chunkEnd L N i →
        chunkStart L N j ≤ l → l ≤ chunkEnd L N j → i = j) := by
  constructor
  · intro l
    constructor
    · rintro ⟨h1, h2⟩
      by_cases hc : (N - 1) * (L / N) < l
      · refine ⟨N - 1, by omega, ?_, ?_⟩
        · simp only [chunkStart, chunk_size]
          exact hc
        · have hne : ¬(N - 1 < N - 1) := Nat.lt_irrefl _
          simp only [chunkEnd, if_neg hne]
          exact h2
      · have hl2 : l ≤ (N - 1) * (L / N) := Nat.le_of_not_lt hc
        have hcs : 0 < L / N := by
          rcases Nat.eq_zero_or_pos (L / N) with hz | hp
          · rw [hz, Nat.mul_zero] at hl2
            exact absurd h1 (by omega)
          · exact hp
        obtain ⟨q, hq1, hq2⟩ := exists_block (L / N) l hcs h1
        have hqN : q < N - 1 := by
          have hlt : q * (L / N) < (N - 1) * (L / N) :=
            Nat.lt_of_lt_of_le hq1 hl2
          exact lt_of_mul_lt_mul_right hlt (Nat.zero_le _)
        refine ⟨q, by omega, ?_, ?_⟩
        · simp only [chunkStart, chunk_size]
          exact hq1
        · simp only [chunkEnd, chunk_size, if_pos hqN]
          exact hq2
    · rintro ⟨i, hiN, hs, he⟩
      simp only [chunkStart, chunk_size] at hs
      refine ⟨Nat.le_trans (Nat.le_add_left 1 _) hs, ?_⟩
      by_cases hi : i < N - 1
      · simp only [chunkEnd, chunk_size, if_pos hi] at he
        exact Nat.le_trans he (chunk_mul_le L N (i + 1) (by omega))
      · simp only [chunkEnd, if_neg hi] at he
        exact he
  · intro l i j hi hj hsi hei hsj hej
    rcases Nat.lt_trichotomy i j with h | h | h
    · exact (chunk_no_overlap_aux L N l i j h hj hei hsj).elim
    · exact h
    · exact (chunk_no_overlap_aux L N l j i h hi hej hsi).elim

/-- Witness for `chunk_ranges_partition` at `L = 100`, `N = 8`. -/
theorem chunk_ranges_partition_witness :
    1 ≤ 8 ∧
    ((∀ l : Nat, (1 ≤ l ∧ l ≤ 100) ↔
      ∃ i, i < 8 ∧ chunkStart 100 8 i ≤ l ∧ l ≤ chunkEnd 100 8 i)
    ∧ (∀ l i j, i < 8 → j < 8 →
        chunkStart 100 8 i ≤ l → l ≤ chunkEnd 100 8 i →
        chunkStart 100 8 j ≤ l → l ≤ chunkEnd 100 8 j → i = j)) :=
  ⟨by decide, chunk_ranges_partition 100 8 (by decide)⟩

/-- Every chunk before the last has exactly `L / N` lines. -/
lemma chunkLen_of_lt (L N i : Nat) (hi : i < N - 1) :
    chunkLen L N i = L / N := by
  simp only [chunkLen, chunkEnd, chunkStart, chunk_size, if_pos hi]
  obtain ⟨cs, hcs⟩ : ∃ cs, L / N = cs := ⟨L / N, rfl⟩
  rw [hcs]
  have h : (i + 1) * cs = i * cs + cs := by ring
  omega

/-- The last chunk has `L / N + L % N` lines. -/
lemma chunkLen_last (L N : Nat) (hN : 1 ≤ N) :
    chunkLen L N (N - 1) = L / N + L % N := by
  have hne : ¬(N - 1 < N - 1) := Nat.lt_irrefl _
  simp only [chunkLen, chunkEnd, chunkStart, chunk_size, if_neg hne]
  have hd := Nat.div_add_mod L N
  obtain ⟨cs, hcs⟩ : ∃ cs, L / N = cs := ⟨L / N, rfl⟩
  obtain ⟨r, hr⟩ : ∃ r, L % N = r := ⟨L % N, rfl⟩
  rw [hcs, hr] at hd ⊢
  have h2 : (N - 1) * cs + cs = N * cs := by
    have h3 : N - 1 + 1 = N := by omega
    calc (N - 1) * cs + cs = (N - 1 + 1) * cs := by ring
      _ = N * cs := by rw [h3]
  omega

/-- Claim C4: for every chunkCount `N ≥ 1` and line count `L` not divisible
by `N`, exactly the final chunk's size differs from `L / N` (floor), and
the final chunk is the larger one; every other chunk has size exactly
`L / N`. -/
theorem last_chunk_absorbs_remainder (L N : Nat) (hN : 1 ≤ N)
    (hmod : L % N ≠ 0) :
    (∀ i, i < N → (chunkLen L N i ≠ L / N ↔ i = N - 1))
    ∧ L / N < chunkLen L N (N - 1) := by
  have hlast := chunkLen_last L N hN
  constructor
  · intro i hi
    constructor
    · intro hne
      by_contra hine
      exact hne (chunkLen_of_lt L N i (by omega))
    · intro he
      rw [he, hlast]
      omega
  · rw [hlast]
    omega

/-- Witness for `last_chunk_absorbs_remainder` at `L = 100`, `N = 8`. -/
theorem last_chunk_absorbs_remainder_witness :
    (1 ≤ 8 ∧ 100 % 8 ≠ 0) ∧
    ((∀ i, i < 8 → (chunkLen 100 8 i ≠ 100 / 8 ↔ i = 8 - 1))
     ∧ 100 / 8 < chunkLen 100 8 (8 - 1)) :=
  ⟨by decide, last_chunk_absorbs_remainder 100 8 (by decide) (by decide)⟩

/-- Claim C3 counterexample: for a 100-line cleaned file split into 8
chunks, neither `[85, 96]` nor `[97, 100]` is among the computed ranges
(the claimed range list ends `..., [85,96], [97,100]`, but the actual list
ends with the single range `[85, 100]`). -/
theorem split_100_8_claimed_ranges_false :
    (85, 96) ∉ chunkRanges 100 8 ∧ (97, 100) ∉ chunkRanges 100 8 := by
  decide

/-- Claim C3 as amended: for a cleaned file of exactly 100 lines split with
chunkCount = 8, the chunk sizes are 12,12,12,12,12,12,12,16 and the
computed 1-indexed ranges are
[1,12],[13,24],[25,36],[37,48],[49,60],[61,72],[73,84],[85,100]. -/
theorem split_100_8_ranges :
    chunkSizes 100 8 = [12, 12, 12, 12, 12, 12, 12, 16] ∧
    chunkRanges 100 8 =
      [(1, 12), (13, 24), (25, 36), (37, 48), (49, 60), (61, 72), (73, 84),
       (85, 100)] := by
  decide

/-! ### Filesystem bookkeeping lemmas -/

/-- Unfolding lemma for one `fsWrite` application. -/
lemma fsWrite_apply (fs : String → Bool) (p q : String) :
    fsWrite fs p q = if q = p then true else fs q := rfl

/-- Unfolding lemma for one `fsRemove` application. -/
lemma fsRemove_apply (fs : String → Bool) (p q : String) :
    fsRemove fs p q = if q = p then false else fs q := rfl

/-- After folding writes of all paths in `l`, a path exists iff it existed
before or is in `l`. -/
lemma foldl_fsWrite_eq_true (l : List String) (fs : String → Bool)
    (q : String) :
    (l.foldl fsWrite fs) q = true ↔ (fs q = true ∨ q ∈ l) := by
  induction l generalizing fs with
  | nil => simp
  | cons p t ih =>
    rw [List.foldl_cons, ih]
    by_cases hq : q = p
    · subst hq
      simp [fsWrite]
    · simp [fsWrite, hq]

/-- After folding removals of all paths in `l`, a path exists iff it
existed before and is not in `l`. -/
lemma foldl_fsRemove_eq_true (l : List String) (fs : String → Bool)
    (q : String) :
    (l.foldl fsRemove fs) q = true ↔ (fs q = true ∧ q ∉ l) := by
  induction l generalizing fs with
  | nil => simp
  | cons p t ih =>
    rw [List.foldl_cons, ih]
    by_cases hq : q = p
    · subst hq
      simp [fsRemove]
    · simp [fsRemove, hq]

/-- When every result is SUCCESS, every temporary path is gone after
cleanup. -/
lemma finalFS_of_all_success (N : Nat) (results : List ChunkResult)
    (h : results.all is_success = true) (p : String)
    (hp : p ∈ tempFilePaths N) : finalFS N results p = false := by
  simp only [finalFS]
  rw [if_pos h]
  by_cases hqc : p = taq_clean_path
  · subst hqc
    rw [fsRemove_apply, if_pos rfl]
  · rcases List.mem_cons.mp hp with hc | hcf
    · exact absurd hc hqc
    · rw [fsRemove_apply, if_neg hqc, Bool.eq_false_iff]
      intro htrue
      rw [foldl_fsRemove_eq_true] at htrue
      exact htrue.2 hcf

/-- When some result is not SUCCESS, every temporary path survives the
run. -/
lemma finalFS_of_not_all_success (N : Nat) (results : List ChunkResult)
    (h : results.all is_success = false) (p : String)
    (hp : p ∈ tempFilePaths N) : finalFS N results p = true := by
  simp only [finalFS]
  rw [if_neg (by simp [h])]
  rw [foldl_fsWrite_eq_true]
  rcases List.mem_cons.mp hp with hc | hcf
  · left
    subst hc
    rw [fsWrite_apply, if_pos rfl]
  · right
    exact hcf

/-! ### Projections of `mainRun` on the normal path -/

/-- On the normal path (source exists, at least one chunk) the results are
`runResults`. -/
lemma mainRun_results (src : List String) (n : Nat) (lr : Nat → Int)
    (tm : Nat → ℚ) :
    (mainRun true src (n + 1) lr tm).results = runResults lr tm (n + 1) := rfl

/-- On the normal path the final filesystem is `finalFS`. -/
lemma mainRun_fileExistsAfter (src : List String) (n : Nat) (lr : Nat → Int)
    (tm : Nat → ℚ) :
    (mainRun true src (n + 1) lr tm).fileExistsAfter
      = finalFS (n + 1) (runResults lr tm (n + 1)) := rfl

/-- On the normal path the process exits 0. -/
lemma mainRun_exitCode_pos (src : List String) (n : Nat) (lr : Nat → Int)
    (tm : Nat → ℚ) :
    (mainRun true src (n + 1) lr tm).exitCode = 0 := rfl

/-- On the normal path the loader is invoked once per chunk. -/
lemma mainRun_loaderInvocations (src : List String) (n : Nat) (lr : Nat → Int)
    (tm : Nat → ℚ) :
    (mainRun true src (n + 1) lr tm).loaderInvocations = n + 1 := by
  show (chunk_files (n + 1)).length = n + 1
  simp [chunk_files]

/-- Claim C2: after all workers complete, the temporary files (the cleaned
file and every chunk file) are deleted iff every result has status
SUCCESS; and if any chunk failed, every temporary artifact, including the
cleaned file, still exists after the run. -/
theorem temp_cleanup_iff (src : List String) (N : Nat) (hN : 1 ≤ N)
    (lr : Nat → Int) (tm : Nat → ℚ) :
    ((∀ p ∈ tempFilePaths N,
        (mainRun true src N lr tm).fileExistsAfter p = false) ↔
      (∀ r ∈ (mainRun true src N lr tm).results, r.status = Status.SUCCESS))
    ∧ ((∃ r ∈ (mainRun true src N lr tm).results,
          r.status = Status.FAILED) →
        ∀ p ∈ tempFilePaths N,
          (mainRun true src N lr tm).fileExistsAfter p = true) := by
  obtain ⟨n, rfl⟩ : ∃ n, N = n + 1 := ⟨N - 1, by omega⟩
  rw [mainRun_results, mainRun_fileExistsAfter]
  have hall : ((runResults lr tm (n + 1)).all is_success = true) ↔
      (∀ r ∈ runResults lr tm (n + 1), r.status = Status.SUCCESS) := by
    simp only [List.all_eq_true, is_success, beq_iff_eq]
  constructor
  · constructor
    · intro hdel
      rw [← hall]
      cases hb : (runResults lr tm (n + 1)).all is_success
      · exfalso
        have hcl := hdel taq_clean_path (List.mem_cons_self _ _)
        rw [finalFS_of_not_all_success (n + 1) _ hb taq_clean_path
          (List.mem_cons_self _ _)] at hcl
        exact Bool.noConfusion hcl
      · rfl
    · intro hsucc p hp
      exact finalFS_of_all_success (n + 1) _ (hall.mpr hsucc) p hp
  · rintro ⟨r, hr, hfail⟩ p hp
    have hfalse : (runResults lr tm (n + 1)).all is_success = false := by
      cases hb : (runResults lr tm (n + 1)).all is_success
      · rfl
      · exfalso
        rw [List.all_eq_true] at hb
        have h2 := hb r hr
        simp [is_success, hfail] at h2
    exact finalFS_of_not_all_success (n + 1) _ hfalse p hp

/-- Witness for `temp_cleanup_iff` with two chunks. -/
theorem temp_cleanup_iff_witness :
    1 ≤ 2 ∧
    (((∀ p ∈ tempFilePaths 2,
        (mainRun true srcSample 2 lrZero tmZero).fileExistsAfter p = false) ↔
      (∀ r ∈ (mainRun true srcSample 2 lrZero tmZero).results,
        r.status = Status.SUCCESS))
    ∧ ((∃ r ∈ (mainRun true srcSample 2 lrZero tmZero).results,
          r.status = Status.FAILED) →
        ∀ p ∈ tempFilePaths 2,
          (mainRun true srcSample 2 lrZero tmZero).fileExistsAfter p = true)) :=
  ⟨by decide, temp_cleanup_iff srcSample 2 (by decide) lrZero tmZero⟩

/-- Claim C6: the summary's average duration over successful chunks is
omitted (not computed, so no division by zero occurs) when the success
count is 0, and otherwise equals the sum of the elapsed durations of the
SUCCESS results divided by the success count; failed chunks' durations
never enter the average (the average depends only on the SUCCESS
sublist). -/
theorem average_success_duration (rs : List ChunkResult) :
    (averageLine rs = none ↔ success_count rs = 0)
    ∧ (success_count rs ≠ 0 →
        averageLine rs = some (success_time rs / (success_count rs : ℚ)))
    ∧ (∀ rs' : List ChunkResult,
        rs.filter is_success = rs'.filter is_success →
        averageLine rs = averageLine rs') := by
  refine ⟨?_, ?_, ?_⟩
  · rw [averageLine]
    by_cases h : 0 < success_count rs
    · rw [if_pos h]
      constructor
      · intro hs
        exact absurd hs (by simp)
      · intro h0
        exact absurd h0 (by omega)
    · rw [if_neg h]
      constructor
      · intro _
        omega
      · intro _
        rfl
  · intro h
    rw [averageLine, if_pos (by omega)]
  · intro rs' hf
    have hc : success_count rs = success_count rs' := by
      rw [success_count, success_count, List.countP_eq_length_filter,
        List.countP_eq_length_filter, hf]
    have ht : success_time rs = success_time rs' := by
      rw [success_time, success_time, hf]
    rw [averageLine, averageLine, hc, ht]

/-- Witness for `average_success_duration`: a SUCCESS of duration 2 and a
FAILED of duration 5 give average 2; replacing the FAILED entry by a
different one (duration 7) leaves the average unchanged. -/
theorem average_success_duration_witness :
    (success_count rsA ≠ 0
      ∧ rsA.filter is_success = rsB.filter is_success)
    ∧ (averageLine rsA = some (success_time rsA / (success_count rsA : ℚ))
      ∧ averageLine rsA = averageLine rsB) :=
  ⟨⟨by decide, by decide⟩,
   ⟨(average_success_duration rsA).2.1 (by decide),
    (average_success_duration rsA).2.2 rsB (by decide)⟩⟩

/-- Claim C7: for every list of per-chunk results, in whatever completion
order, the detail table is printed after sorting by ascending chunk index:
the sorted list is a permutation of the results and is ordered by chunk
index; in particular results arriving in reverse completion order
(chunks 3, 2, 1) print as chunks 1, 2, 3. -/
theorem detail_report_sorted :
    (∀ rs : List ChunkResult,
      List.Perm (sorted_results rs) rs
      ∧ List.Sorted (fun a b : ChunkResult => a.chunk ≤ b.chunk)
          (sorted_results rs))
    ∧ (sorted_results revResults).map ChunkResult.chunk = [1, 2, 3] := by
  constructor
  · intro rs
    exact ⟨List.perm_insertionSort _ rs, List.sorted_insertionSort _ rs⟩
  · decide

/-- Claim C5 counterexample: with an existing source file and a chunk
count of 0, the run reaches the division by zero on line 70 and the
process exits 1, not 0, even though the source file exists and no chunk
failed. -/
theorem exit_code_zero_chunks_counterexample :
    (mainRun true srcSample 0 lrZero tmZero).exitCode = 1
    ∧ (mainRun true srcSample 0 lrZero tmZero).error
        = some PyError.zeroDivisionError := by
  decide

/-- Claim C5 as amended: if the source file path does not exist, the
process terminates with exit code 1 before any chunking work (no cleaned
file, no chunk files, no Chunk Loader invocation); in every other case
with chunkCount ≥ 1 the process exits 0 regardless of how many chunks
failed.  (With chunkCount = 0 the run instead dies on the uncaught
ZeroDivisionError of line 70 and exits 1.) -/
theorem exit_code_spec (src : List String) (N : Nat) (lr : Nat → Int)
    (tm : Nat → ℚ) :
    ((mainRun false src N lr tm).exitCode = 1
      ∧ (mainRun false src N lr tm).cleanedWritten = false
      ∧ (mainRun false src N lr tm).chunkFiles = []
      ∧ (mainRun false src N lr tm).loaderInvocations = 0)
    ∧ (1 ≤ N → (mainRun true src N lr tm).exitCode = 0) := by
  refine ⟨⟨rfl, rfl, rfl, rfl⟩, ?_⟩
  intro hN
  obtain ⟨n, rfl⟩ : ∃ n, N = n + 1 := ⟨N - 1, by omega⟩
  exact mainRun_exitCode_pos src n lr tm

/-- Witness for `exit_code_spec`: two chunks, every load failing, and the
exit code is still 0. -/
theorem exit_code_spec_witness :
    1 ≤ 2 ∧ (mainRun true srcSample 2 lrOne tmZero).exitCode = 0 :=
  ⟨by decide, (exit_code_spec srcSample 2 lrOne tmZero).2 (by decide)⟩

/-- Claim C8 counterexample: two distinct runs (different source files,
same chunk count) generate exactly the same temporary chunk file paths,
so the temporary files are not uniquely named per run. -/
theorem temp_paths_not_unique :
    srcSample ≠ srcAlt
    ∧ (mainRun true srcSample 8 lrZero tmZero).chunkFiles
        = (mainRun true srcAlt 8 lrZero tmZero).chunkFiles
    ∧ (mainRun true srcSample 8 lrZero tmZero).chunkFiles = chunk_files 8 :=
  ⟨by decide, rfl, rfl⟩

/-- Claim C8 as amended: the temporary file paths are fixed constants
(`/tmp/taq_clean` and `/tmp/taq_chunk_{i}.csv`) that contain no run-unique
component: any two runs with the same chunk count generate identical
temporary paths, so concurrent runs on the same host can collide on each
other's temporary artifacts. -/
theorem temp_paths_constant (src1 src2 : List String) (N : Nat)
    (lr1 lr2 : Nat → Int) (tm1 tm2 : Nat → ℚ) :
    (mainRun true src1 N lr1 tm1).chunkFiles
      = (mainRun true src2 N lr2 tm2).chunkFiles
    ∧ (mainRun true src1 N lr1 tm1).chunkFiles = chunk_files N := by
  cases N with
  | zero => exact ⟨rfl, rfl⟩
  | succ n => exact ⟨rfl, rfl⟩

/-- Claim C9: the `--chunks` argument is never validated, so
chunkCount ≥ 1 is a genuine unchecked precondition: for every
chunkCount ≥ 1 the run raises no exception (the chunk-size division is
well-defined), while chunkCount = 0 reaches the division by zero of
line 70 after the cleaned temporary file has already been written. -/
theorem chunks_zero_division (src : List String) (lr : Nat → Int)
    (tm : Nat → ℚ) :
    (∀ N, 1 ≤ N → (mainRun true src N lr tm).error = none)
    ∧ (mainRun true src 0 lr tm).error = some PyError.zeroDivisionError
    ∧ (mainRun true src 0 lr tm).cleanedWritten = true
    ∧ (mainRun true src 0 lr tm).fileExistsAfter taq_clean_path = true := by
  refine ⟨?_, rfl, rfl, ?_⟩
  · intro N hN
    obtain ⟨n, rfl⟩ : ∃ n, N = n + 1 := ⟨N - 1, by omega⟩
    rfl
  · show fsWrite (fun _ => false) taq_clean_path taq_clean_path = true
    rw [fsWrite_apply, if_pos rfl]

/-- Witness for `chunks_zero_division` at eight chunks. -/
theorem chunks_zero_division_witness :
    1 ≤ 8 ∧ (mainRun true srcSample 8 lrZero tmZero).error = none :=
  ⟨by decide, (chunks_zero_division srcSample lrZero tmZero).1 8 (by decide)⟩

/-- Claim C10 counterexample: for a cleaned file of exactly one line split
into 2 chunks, the non-last chunk 0 gets the reversed range [1, 0] — but
its materialized file is not empty: GNU sed selects line 1 for the
address range 1,0, so the chunk file contains the first cleaned line. -/
theorem tiny_file_chunk_not_empty :
    chunk_size (cleanedLines srcSmall).length 2 = 0
    ∧ chunkStart (cleanedLines srcSmall).length 2 0 = 1
    ∧ chunkEnd (cleanedLines srcSmall).length 2 0 = 0
    ∧ chunkContents (cleanedLines srcSmall) 2 0 = ["data1"]
    ∧ chunkContents (cleanedLines srcSmall) 2 0 ≠ [] := by
  decide

/-- Claim C10 as amended: when the cleaned line count L satisfies
1 ≤ L < chunkCount, chunkSize is 0, so every chunk except the last gets
the reversed range [1, 0] and is materialized as a file holding exactly
the first cleaned line (GNU sed selects the start-address line when the
end address is smaller — the file is not empty), while the last chunk's
range [1, L] contains all L lines; the Chunk Loader is nevertheless
invoked exactly once per chunk. -/
theorem tiny_file_chunks (cleaned : List String) (N : Nat)
    (hL : 1 ≤ cleaned.length) (hLN : cleaned.length < N) :
    chunk_size cleaned.length N = 0
    ∧ (∀ i, i < N - 1 →
        chunkStart cleaned.length N i = 1
        ∧ chunkEnd cleaned.length N i = 0
        ∧ chunkContents cleaned N i = cleaned.take 1)
    ∧ chunkStart cleaned.length N (N - 1) = 1
    ∧ chunkEnd cleaned.length N (N - 1) = cleaned.length
    ∧ chunkContents cleaned N (N - 1) = cleaned
    ∧ (∀ (src : List String) (lr : Nat → Int) (tm : Nat → ℚ),
        (mainRun true src N lr tm).loaderInvocations = N) := by
  have hcs0 : chunk_size cleaned.length N = 0 := Nat.div_eq_of_lt hLN
  have hne : ¬(N - 1 < N - 1) := Nat.lt_irrefl _
  refine ⟨hcs0, ?_, ?_, ?_, ?_, ?_⟩
  · intro i hi
    have hs : chunkStart cleaned.length N i = 1 := by
      simp [chunkStart, hcs0]
    have he : chunkEnd cleaned.length N i = 0 := by
      simp [chunkEnd, if_pos hi, hcs0]
    refine ⟨hs, he, ?_⟩
    rw [chunkContents, hs, he]
    simp [sedPrintRange]
  · simp [chunkStart, hcs0]
  · simp [chunkEnd, if_neg hne]
  · have hs : chunkStart cleaned.length N (N - 1) = 1 := by
      simp [chunkStart, hcs0]
    have he : chunkEnd cleaned.length N (N - 1) = cleaned.length := by
      simp [chunkEnd, if_neg hne]
    rw [chunkContents, hs, he]
    by_cases hL1 : cleaned.length ≤ 1
    · rw [sedPrintRange, if_pos hL1]
      simp [List.take_of_length_le hL1]
    · rw [sedPrintRange, if_neg hL1]
      simp
  · intro src lr tm
    obtain ⟨n, rfl⟩ : ∃ n, N = n + 1 := ⟨N - 1, by omega⟩
    exact mainRun_loaderInvocations src n lr tm

/-- Witness for `tiny_file_chunks` with one cleaned line and two
chunks. -/
theorem tiny_file_chunks_witness :
    (1 ≤ (cleanedLines srcSmall).length
      ∧ (cleanedLines srcSmall).length < 2)
    ∧ (chunk_size (cleanedLines srcSmall).length 2 = 0
      ∧ (∀ i, i < 2 - 1 →
          chunkStart (cleanedLines srcSmall).length 2 i = 1
          ∧ chunkEnd (cleanedLines srcSmall).length 2 i = 0
          ∧ chunkContents (cleanedLines srcSmall) 2 i
              = (cleanedLines srcSmall).take 1)
      ∧ chunkStart (cleanedLines srcSmall).length 2 (2 - 1) = 1
      ∧ chunkEnd (cleanedLines srcSmall).length 2 (2 - 1)
          = (cleanedLines srcSmall).length
      ∧ chunkContents (cleanedLines srcSmall) 2 (2 - 1)
          = cleanedLines srcSmall
      ∧ (∀ (src : List String) (lr : Nat → Int) (tm : Nat → ℚ),
          (mainRun true src 2 lr tm).loaderInvocations = 2)) :=
  ⟨⟨by decide, by decide⟩,
   tiny_file_chunks (cleanedLines srcSmall) 2 (by decide) (by decide)⟩
